import Mathlib

/-!
Verification of the i-subrek subscription tracker's pure library layer
(`src/lib/calculations.ts`, `src/lib/date-utils.ts`, `src/lib/filtering.ts`,
`src/lib/masking.ts`, `src/lib/encryption.ts`, `src/lib/serialization.ts`)
against its natural-language specification.

Modelling conventions:
- TS `number` prices become rationals (`ℚ`); `parseFloat(sub.price)` is
  modelled by storing the parse result `Option ℚ` on the record, `none`
  standing for `NaN`.
- The `BillingCycle` union type of the schema is an inductive; where the
  source guards against an unknown runtime tag reaching a `switch` (the
  `default: throw` branches of `date-utils.ts`), the cycle is a raw
  `String` and the function returns `Except String`.
- JS `Date` values that are only compared at calendar-day granularity are
  a `Timestamp` (day number plus milliseconds within the day);
  `setHours(0,0,0,0)` zeroes the intra-day part.
- JS `Date` values that undergo calendar arithmetic (`addMonths`,
  `addYears` of date-fns) are civil dates (year, month, day).
-/

namespace ISubrek

/-- The `billingCycle` column type of the schema:
`"monthly" | "yearly" | "one-time" | "trial"`. -/
inductive BillingCycle where
  | monthly
  | yearly
  | oneTime
  | trial
  deriving DecidableEq, Repr

/-- A calendar-day timestamp: `day` is the day number (days since an
arbitrary epoch) and `msInDay` the milliseconds elapsed within that day.
Models a JS `Date` for the day-difference computations. -/
structure Timestamp where
  day : Int
  msInDay : Nat
  deriving DecidableEq, Repr

/-- `date.setHours(0, 0, 0, 0)`: strip the time-of-day. -/
def setHoursZero (t : Timestamp) : Timestamp := ⟨t.day, 0⟩

/-- date-fns `differenceInDays(a, b)`: the number of full days between the
two instants, the quotient truncated (exact here because both call sites
pass midnight-aligned dates, making the difference a whole multiple of
86400000 ms). -/
def differenceInDays (a b : Timestamp) : Int :=
  ((a.day * 86400000 + (a.msInDay : Int)) - (b.day * 86400000 + (b.msInDay : Int))) / 86400000

/-- The in-memory subscription record as the calculation/filtering layer
sees it: `status`, `category` and the dynamically-accessed
`(sub as any).subscriptionType` are raw strings, `price` is the
`parseFloat` result (`none` = `NaN`), `nextPaymentDate` a timestamp. -/
structure Subscription where
  status : String
  subscriptionType : Option String
  billingCycle : BillingCycle
  price : Option ℚ
  category : Option String
  nextPaymentDate : Timestamp
  deriving DecidableEq, Repr

/-! ## `src/lib/calculations.ts` -/

/-- The reducer body of `calculateTotalMonthlySpending`: one step of the
`reduce` over the active records. -/
def spendingStep (total : ℚ) (sub : Subscription) : ℚ :=
  match sub.price with
  | none => total
  | some price =>
    if sub.subscriptionType = some "trial" then total
    else if sub.subscriptionType = some "voucher" then total + price
    else
      match sub.billingCycle with
      | .monthly => total + price
      | .yearly => total + price / 12
      | .oneTime => total + price
      | .trial => total + price

/-- `calculateTotalMonthlySpending(subscriptions)`: filter to
`status === "active"`, then reduce with `spendingStep` from 0. -/
def calculateTotalMonthlySpending (subscriptions : List Subscription) : ℚ :=
  (subscriptions.filter (fun sub => sub.status == "active")).foldl spendingStep 0

/-- `getTrialsEndingSoon(subscriptions, thresholdDays)`.  The source reads
the current date (`new Date()`); the model takes `today` as an explicit
argument. -/
def getTrialsEndingSoon (subscriptions : List Subscription) (thresholdDays : Int)
    (today : Timestamp) : List Subscription :=
  let t := setHoursZero today
  subscriptions.filter (fun sub =>
    if sub.subscriptionType ≠ some "trial" ∧ sub.billingCycle ≠ .trial then
      false
    else
      let nextPaymentDate := setHoursZero sub.nextPaymentDate
      let daysUntilEnd := differenceInDays nextPaymentDate t
      decide (daysUntilEnd ≥ 0) && decide (daysUntilEnd ≤ thresholdDays))

/-! ## `src/lib/date-utils.ts` -/

/-- Gregorian leap-year test (as implemented by the JS `Date` calendar
date-fns computes on). -/
def isLeapYear (y : Int) : Bool :=
  (y % 4 == 0 && y % 100 != 0) || y % 400 == 0

/-- Days in month `m` (1–12) of year `y`. -/
def daysInMonth (y : Int) (m : Nat) : Nat :=
  match m with
  | 1 => 31
  | 2 => if isLeapYear y then 29 else 28
  | 3 => 31
  | 4 => 30
  | 5 => 31
  | 6 => 30
  | 7 => 31
  | 8 => 31
  | 9 => 30
  | 10 => 31
  | 11 => 30
  | _ => 31

/-- A civil date (year, month 1–12, day of month), the representation on
which date-fns month/year arithmetic acts. -/
structure CivilDate where
  year : Int
  month : Nat
  day : Nat
  deriving DecidableEq, Repr

/-- date-fns `addMonths(date, amount)`: move `amount` months, keeping the
day of month but clamping it to the length of the target month. -/
def addMonths (d : CivilDate) (amount : Int) : CivilDate :=
  let m0 : Int := d.year * 12 + (d.month : Int) - 1 + amount
  let y := m0 / 12
  let m := (m0 % 12).toNat + 1
  ⟨y, m, min d.day (daysInMonth y m)⟩

/-- date-fns `addYears(date, amount)` = `addMonths(date, 12 * amount)`. -/
def addYears (d : CivilDate) (amount : Int) : CivilDate :=
  addMonths d (12 * amount)

/-- `calculateNextPaymentDate(startDate, billingCycle)`.  The cycle is the
raw runtime string; the `default: throw` branch becomes `Except.error`. -/
def calculateNextPaymentDate (startDate : CivilDate) (billingCycle : String) :
    Except String CivilDate :=
  if billingCycle = "monthly" then .ok (addMonths startDate 1)
  else if billingCycle = "yearly" then .ok (addYears startDate 1)
  else if billingCycle = "one-time" then .ok startDate
  else if billingCycle = "trial" then .ok startDate
  else .error ("Unknown billing cycle: " ++ billingCycle)

/-- `advancePaymentDate(currentNextDate, billingCycle)`. -/
def advancePaymentDate (currentNextDate : CivilDate) (billingCycle : String) :
    Except String CivilDate :=
  if billingCycle = "monthly" then .ok (addMonths currentNextDate 1)
  else if billingCycle = "yearly" then .ok (addYears currentNextDate 1)
  else if billingCycle = "one-time" then .ok currentNextDate
  else if billingCycle = "trial" then .ok currentNextDate
  else .error ("Unknown billing cycle: " ++ billingCycle)

/-- `isWithinReminderDays(nextPaymentDate, reminderDays)`; `today` is the
source's `new Date()` made explicit. -/
def isWithinReminderDays (nextPaymentDate : Timestamp) (reminderDays : Int)
    (today : Timestamp) : Bool :=
  let t := setHoursZero today
  let paymentDate := setHoursZero nextPaymentDate
  let daysUntilPayment := differenceInDays paymentDate t
  decide (daysUntilPayment ≥ 0) && decide (daysUntilPayment ≤ reminderDays)

/-! ## `src/lib/filtering.ts` -/

/-- `filterByCategory(subscriptions, category)`; the target category is a
non-null enum value, compared with the nullable `category` column. -/
def filterByCategory (subscriptions : List Subscription) (category : String) :
    List Subscription :=
  subscriptions.filter (fun sub => sub.category == some category)

/-- `filterByStatus(subscriptions, status)`. -/
def filterByStatus (subscriptions : List Subscription) (status : String) :
    List Subscription :=
  subscriptions.filter (fun sub => sub.status == status)

/-! ## `src/lib/masking.ts` -/

/-- `extractLastFourDigits(fullNumber)`: remove all non-digit characters
(`replace(/\D/g, "")`), then keep the last four (all of them if four or
fewer). -/
def extractLastFourDigits (fullNumber : String) : String :=
  let digitsOnly := String.mk (fullNumber.data.filter Char.isDigit)
  if digitsOnly.length ≤ 4 then digitsOnly
  else String.mk (digitsOnly.data.drop (digitsOnly.length - 4))

/-- `maskPaymentMethod(fullNumber)`: mask to `"**** XXXX"`, or return the
extracted digits as-is when fewer than four exist. -/
def maskPaymentMethod (fullNumber : String) : String :=
  let lastFour := extractLastFourDigits fullNumber
  if lastFour.length < 4 then lastFour
  else "**** " ++ lastFour

/-! ## `src/lib/encryption.ts`

The AES-256-GCM primitive (`createCipheriv`/`createDecipheriv`) and the
IV randomness (`randomBytes`) are Node runtime primitives, not repository
code; they are modelled by an abstract `CipherModel` together with the
per-call IV passed explicitly.  The repository's own logic — the
`IV ++ authTag ++ ciphertext` packing and its base64 transport encoding —
is embedded concretely.  Byte strings are lists of `Nat` below 256. -/

/-- The base64 alphabet, in index order. -/
def base64Chars : List Char :=
  "ABCDEFGHIJKLMNOPQRSTUVWXYZabcdefghijklmnopqrstuvwxyz0123456789+/".data

/-- The base64 character of a 6-bit value. -/
def sextetChar (n : Nat) : Char := base64Chars.getD n 'A'

/-- The 6-bit value of a base64 character, if any. -/
def charSextet (c : Char) : Option Nat := base64Chars.indexOf? c

/-- `Buffer.toString("base64")`: encode a byte string, three bytes to four
characters, padding the final partial group with `=`. -/
def encodeB64 : List Nat → List Char
  | [] => []
  | [a] => [sextetChar (a / 4), sextetChar (a % 4 * 16), '=', '=']
  | [a, b] => [sextetChar (a / 4), sextetChar (a % 4 * 16 + b / 16),
               sextetChar (b % 16 * 4), '=']
  | a :: b :: c :: rest =>
    sextetChar (a / 4) :: sextetChar (a % 4 * 16 + b / 16) ::
    sextetChar (b % 16 * 4 + c / 64) :: sextetChar (c % 64) :: encodeB64 rest

/-- `Buffer.from(s, "base64")`: decode four-character groups back to
bytes, `'='` padding allowed only in the final group, `none` on
malformed input. -/
def decodeB64 : List Char → Option (List Nat)
  | [] => some []
  | c1 :: c2 :: c3 :: c4 :: rest =>
    if c3 = '=' ∧ c4 = '=' ∧ rest = [] then do
      let s1 ← charSextet c1
      let s2 ← charSextet c2
      pure [s1 * 4 + s2 / 16]
    else if c4 = '=' ∧ rest = [] then do
      let s1 ← charSextet c1
      let s2 ← charSextet c2
      let s3 ← charSextet c3
      pure [s1 * 4 + s2 / 16, s2 % 16 * 16 + s3 / 4]
    else do
      let s1 ← charSextet c1
      let s2 ← charSextet c2
      let s3 ← charSextet c3
      let s4 ← charSextet c4
      let r ← decodeB64 rest
      pure ((s1 * 4 + s2 / 16) :: (s2 % 16 * 16 + s3 / 4) :: (s3 % 4 * 64 + s4) :: r)
  | _ => none

/-- `IV_LENGTH` from the source. -/
def IV_LENGTH : Nat := 16

/-- `AUTH_TAG_LENGTH` from the source. -/
def AUTH_TAG_LENGTH : Nat := 16

/-- Abstract model of the keyed AES-256-GCM primitive (the key, fixed by
`getEncryptionKey()`, is folded into the three functions).  `decrypt`
returns `none` when authentication fails (`decipher.final` throwing). -/
structure CipherModel where
  encrypt : List Nat → List Nat → List Nat
  getAuthTag : List Nat → List Nat → List Nat
  decrypt : List Nat → List Nat → List Nat → Option (List Nat)

/-- `encryptPassword(plainText)`: encrypt under a fresh 16-byte IV and
return `base64(iv ++ authTag ++ ciphertext)`.  The IV drawn by
`randomBytes(IV_LENGTH)` is the explicit `iv` argument; the plaintext is
its UTF-8 byte string. -/
def encryptPassword (A : CipherModel) (iv : List Nat) (plainText : List Nat) : String :=
  let encrypted := A.encrypt iv plainText
  let authTag := A.getAuthTag iv plainText
  let combined := iv ++ authTag ++ encrypted
  String.mk (encodeB64 combined)

/-- `decryptPassword(cipherText)`: base64-decode, split off the IV and
auth tag, and decrypt; `none` models the call throwing. -/
def decryptPassword (A : CipherModel) (cipherText : String) : Option (List Nat) :=
  (decodeB64 cipherText.data).bind (fun combined =>
    let iv := combined.take IV_LENGTH
    let authTag := (combined.drop IV_LENGTH).take AUTH_TAG_LENGTH
    let encrypted := combined.drop (IV_LENGTH + AUTH_TAG_LENGTH)
    A.decrypt iv authTag encrypted)

/-! ## `src/lib/serialization.ts`

`JSON.stringify`/`JSON.parse` on the flat `SubscriptionJSON` object are a
runtime-provided exact round trip; the serialized form is modelled as the
`SubscriptionJSON` record itself.  The repository-owned part — converting
each `Date` field through `toISOString()` on the way out and
`new Date(iso)` on the way back — is embedded concretely.  A JS `Date` is
`Option DateComponents`, `none` standing for an Invalid Date (on which
`toISOString` throws); the model covers the four-digit-year range
0–9999 that `toISOString` prints in the fixed 24-character format. -/

/-- The fields of a JS `Date` in UTC: year, month (1–12), day, hour,
minute, second, millisecond. -/
structure DateComponents where
  year : Nat
  month : Nat
  day : Nat
  hour : Nat
  minute : Nat
  second : Nat
  ms : Nat
  deriving DecidableEq, Repr

/-- The decimal digit character of `n < 10` (codepoint offset from `'0'`). -/
def digitChar (n : Nat) : Char :=
  Char.ofNat ('0'.toNat + min n 9)

/-- The value of a decimal digit character, `none` on a non-digit. -/
def digitVal (c : Char) : Option Nat :=
  if '0' ≤ c ∧ c ≤ '9' then some (c.toNat - '0'.toNat) else none

/-- Two-digit zero-padded decimal. -/
def pad2 (n : Nat) : List Char := [digitChar (n / 10), digitChar (n % 10)]

/-- Three-digit zero-padded decimal. -/
def pad3 (n : Nat) : List Char := digitChar (n / 100) :: pad2 (n % 100)

/-- Four-digit zero-padded decimal. -/
def pad4 (n : Nat) : List Char := pad2 (n / 100) ++ pad2 (n % 100)

/-- `Date.prototype.toISOString()`: `YYYY-MM-DDTHH:mm:ss.sssZ`. -/
def toISOString (c : DateComponents) : String :=
  String.mk (pad4 c.year ++ '-' :: pad2 c.month ++ '-' :: pad2 c.day ++
    'T' :: pad2 c.hour ++ ':' :: pad2 c.minute ++ ':' :: pad2 c.second ++
    '.' :: pad3 c.ms ++ ['Z'])

/-- Read a two-digit decimal number. -/
def r2 (a b : Char) : Option Nat := do
  let x ← digitVal a
  let y ← digitVal b
  pure (10 * x + y)

/-- The component ranges a real calendar instant satisfies (year kept in
the four-digit `toISOString` format range). -/
def isValidDate (c : DateComponents) : Bool :=
  c.year ≤ 9999 && 1 ≤ c.month && c.month ≤ 12 && 1 ≤ c.day &&
    c.day ≤ daysInMonth (c.year : Int) c.month && c.hour ≤ 23 &&
    c.minute ≤ 59 && c.second ≤ 59 && c.ms ≤ 999

/-- `new Date(string)` on a 24-character ISO string: parse and validate,
Invalid Date (`none`) on anything malformed. -/
def parseISO (s : String) : Option DateComponents :=
  match s.data with
  | [y1, y2, y3, y4, '-', mo1, mo2, '-', d1, d2, 'T', h1, h2, ':',
     mi1, mi2, ':', s1, s2, '.', x1, x2, x3, 'Z'] => do
    let yh ← r2 y1 y2
    let yl ← r2 y3 y4
    let month ← r2 mo1 mo2
    let day ← r2 d1 d2
    let hour ← r2 h1 h2
    let minute ← r2 mi1 mi2
    let second ← r2 s1 s2
    let xh ← digitVal x1
    let xl ← r2 x2 x3
    let c : DateComponents := ⟨yh * 100 + yl, month, day, hour, minute, second, xh * 100 + xl⟩
    if isValidDate c then some c else none
  | _ => none

/-- `SerializableSubscription` from the source; the four `Date` fields are
JS dates (`none` = Invalid Date). -/
structure SerializableSubscription where
  id : String
  userId : String
  name : String
  price : String
  currency : String
  billingCycle : BillingCycle
  startDate : Option DateComponents
  nextPaymentDate : Option DateComponents
  reminderDays : Int
  paymentMethodProvider : Option String
  paymentMethodNumber : Option String
  accountEmail : Option String
  accountPasswordEncrypted : Option String
  notes : Option String
  category : Option String
  status : String
  createdAt : Option DateComponents
  updatedAt : Option DateComponents
  deriving DecidableEq, Repr

/-- `SubscriptionJSON` from the source: dates as ISO strings. -/
structure SubscriptionJSON where
  id : String
  userId : String
  name : String
  price : String
  currency : String
  billingCycle : BillingCycle
  startDate : String
  nextPaymentDate : String
  reminderDays : Int
  paymentMethodProvider : Option String
  paymentMethodNumber : Option String
  accountEmail : Option String
  accountPasswordEncrypted : Option String
  notes : Option String
  category : Option String
  status : String
  createdAt : String
  updatedAt : String
  deriving DecidableEq, Repr

/-- `serializeSubscription(subscription)`: spread the record, replacing
each date by `toISOString()`; `none` models the `RangeError` that
`toISOString` raises on an Invalid Date. -/
def serializeSubscription (s : SerializableSubscription) : Option SubscriptionJSON :=
  match s.startDate, s.nextPaymentDate, s.createdAt, s.updatedAt with
  | some sd, some npd, some ca, some ua =>
    some { id := s.id, userId := s.userId, name := s.name, price := s.price,
           currency := s.currency, billingCycle := s.billingCycle,
           startDate := toISOString sd, nextPaymentDate := toISOString npd,
           reminderDays := s.reminderDays,
           paymentMethodProvider := s.paymentMethodProvider,
           paymentMethodNumber := s.paymentMethodNumber,
           accountEmail := s.accountEmail,
           accountPasswordEncrypted := s.accountPasswordEncrypted,
           notes := s.notes, category := s.category, status := s.status,
           createdAt := toISOString ca, updatedAt := toISOString ua }
  | _, _, _, _ => none

/-- `deserializeSubscription(json)`: spread the parsed object back,
replacing each ISO string by `new Date(iso)`. -/
def deserializeSubscription (j : SubscriptionJSON) : SerializableSubscription :=
  { id := j.id, userId := j.userId, name := j.name, price := j.price,
    currency := j.currency, billingCycle := j.billingCycle,
    startDate := parseISO j.startDate,
    nextPaymentDate := parseISO j.nextPaymentDate,
    reminderDays := j.reminderDays,
    paymentMethodProvider := j.paymentMethodProvider,
    paymentMethodNumber := j.paymentMethodNumber,
    accountEmail := j.accountEmail,
    accountPasswordEncrypted := j.accountPasswordEncrypted,
    notes := j.notes, category := j.category, status := j.status,
    createdAt := parseISO j.createdAt,
    updatedAt := parseISO j.updatedAt }

/-! ## Spec-side definitions -/

/-- Modelled from the spec: the per-record monthly contribution table of
§4.3 — 0 for `subscriptionType == trial`, the full price for
`subscriptionType == voucher`, otherwise by billing cycle (`monthly`
as-is, `yearly` divided by 12, `one-time`/`trial` as-is). -/
def specContribution (sub : Subscription) (price : ℚ) : ℚ :=
  if sub.subscriptionType = some "trial" then 0
  else if sub.subscriptionType = some "voucher" then price
  else
    match sub.billingCycle with
    | .monthly => price
    | .yearly => price / 12
    | .oneTime => price
    | .trial => price

/-- The contribution of a single record to the spending total: 0 when the
price failed to parse, otherwise the §4.3 table. -/
def recordContribution (s : Subscription) : ℚ :=
  match s.price with
  | none => 0
  | some p => specContribution s p

/-- A degenerate instantiation of the abstract AES-GCM primitive, used to
exhibit that the cipher hypotheses of the encryption theorems are
satisfiable. -/
def trivialCipher : CipherModel where
  encrypt := fun _ p => p
  getAuthTag := fun _ _ => List.replicate 16 0
  decrypt := fun _ t c => if t = List.replicate 16 0 then some c else none

/-! ## Helper lemmas -/

theorem differenceInDays_setHoursZero (a b : Timestamp) :
    differenceInDays (setHoursZero a) (setHoursZero b) = a.day - b.day := by
  unfold differenceInDays setHoursZero
  simp only [Nat.cast_zero, add_zero]
  rw [show a.day * 86400000 - b.day * 86400000 = (a.day - b.day) * 86400000 by ring]
  exact Int.mul_ediv_cancel _ (by norm_num)

theorem isWithinReminderDays_iff (p today : Timestamp) (w : Int) :
    isWithinReminderDays p w today = true ↔
      0 ≤ p.day - today.day ∧ p.day - today.day ≤ w := by
  unfold isWithinReminderDays
  simp only []
  rw [differenceInDays_setHoursZero]
  simp [Bool.and_eq_true, ge_iff_le]

/-! ## Claim theorems -/

/-- Claim C3: `isWithinReminderDays(p, w)` is true iff
`0 ≤ (p − today) ≤ w` in whole calendar days after stripping the
time-of-day from both sides; in particular a past-due date gives `false`,
a difference of exactly 0 and of exactly `w` give `true` (for a
non-negative window), and a difference of `w + 1` gives `false`. -/
theorem C3_isWithinReminderDays_window (p today : Timestamp) (w : Int) :
    (isWithinReminderDays p w today = true ↔
      0 ≤ p.day - today.day ∧ p.day - today.day ≤ w)
    ∧ (p.day - today.day < 0 → isWithinReminderDays p w today = false)
    ∧ (0 ≤ w → p.day - today.day = 0 → isWithinReminderDays p w today = true)
    ∧ (0 ≤ w → p.day - today.day = w → isWithinReminderDays p w today = true)
    ∧ (p.day - today.day = w + 1 → isWithinReminderDays p w today = false) := by
  have h := isWithinReminderDays_iff p today w
  refine ⟨h, ?_, ?_, ?_, ?_⟩
  · intro hneg
    rw [Bool.eq_false_iff]
    intro htrue
    have := h.mp htrue
    omega
  · intro hw h0
    exact h.mpr (by omega)
  · intro hw hww
    exact h.mpr (by omega)
  · intro hsucc
    rw [Bool.eq_false_iff]
    intro htrue
    have := h.mp htrue
    omega

/-- Witness for C3 at a concrete payment date exactly seven days out with
a seven-day window. -/
theorem C3_isWithinReminderDays_window_witness :
    isWithinReminderDays ⟨10, 3600000⟩ 7 ⟨3, 7200000⟩ = true :=
  (C3_isWithinReminderDays_window ⟨10, 3600000⟩ ⟨3, 7200000⟩ 7).2.2.2.1
    (by norm_num) (by norm_num)

/-- Claim C7: `filterByCategory` (resp. `filterByStatus`) keeps exactly
the records whose `category` (resp. `status`) field strictly equals the
target, preserving input order (the result is a sublist of the input);
an empty input and a matchless input both give the empty list. -/
theorem C7_filter_by_category_status (subs : List Subscription)
    (category status : String) :
    ((∀ s, s ∈ filterByCategory subs category ↔
        s ∈ subs ∧ s.category = some category)
      ∧ (filterByCategory subs category).Sublist subs
      ∧ filterByCategory [] category = []
      ∧ ((∀ s ∈ subs, s.category ≠ some category) →
          filterByCategory subs category = []))
    ∧ ((∀ s, s ∈ filterByStatus subs status ↔
        s ∈ subs ∧ s.status = status)
      ∧ (filterByStatus subs status).Sublist subs
      ∧ filterByStatus [] status = []
      ∧ ((∀ s ∈ subs, s.status ≠ status) →
          filterByStatus subs status = [])) := by
  constructor
  · refine ⟨?_, List.filter_sublist _, rfl, ?_⟩
    · intro s
      simp [filterByCategory, List.mem_filter]
    · intro hnone
      rw [filterByCategory, List.filter_eq_nil_iff]
      intro s hs
      simpa using hnone s hs
  · refine ⟨?_, List.filter_sublist _, rfl, ?_⟩
    · intro s
      simp [filterByStatus, List.mem_filter]
    · intro hnone
      rw [filterByStatus, List.filter_eq_nil_iff]
      intro s hs
      simpa using hnone s hs

/-- Witness for C7 on a concrete two-record list. -/
theorem C7_filter_by_category_status_witness :
    (⟨"active", none, .monthly, some 10, some "Tools", ⟨0, 0⟩⟩ : Subscription) ∈
      filterByCategory
        [⟨"active", none, .monthly, some 10, some "Tools", ⟨0, 0⟩⟩,
         ⟨"cancelled", none, .yearly, some 5, some "Work", ⟨0, 0⟩⟩] "Tools" :=
  ((C7_filter_by_category_status
      [⟨"active", none, .monthly, some 10, some "Tools", ⟨0, 0⟩⟩,
       ⟨"cancelled", none, .yearly, some 5, some "Work", ⟨0, 0⟩⟩]
      "Tools" "active").1.1 _).mpr (by simp)

/-- Claim C8 counterexample: on `"a-12"` (two digits, fewer than four)
`maskPaymentMethod` returns the stripped digits `"12"`, not the input
unchanged as the claim states. -/
theorem C8_mask_counterexample :
    maskPaymentMethod "a-12" = "12" ∧ maskPaymentMethod "a-12" ≠ "a-12" := by
  constructor <;> decide

/-- Claim C8 (amended): with at least four digits in the input,
`maskPaymentMethod` returns `"**** "` followed by the last four digit
characters; with fewer than four digits it returns the digit characters
of the input (non-digits removed) — which coincides with the input
itself only when the input consists solely of digits. -/
theorem C8_mask_payment_method (s : String) :
    (4 ≤ (s.data.filter Char.isDigit).length →
      maskPaymentMethod s = "**** " ++ String.mk
        ((s.data.filter Char.isDigit).drop
          ((s.data.filter Char.isDigit).length - 4)))
    ∧ ((s.data.filter Char.isDigit).length < 4 →
      maskPaymentMethod s = String.mk (s.data.filter Char.isDigit))
    ∧ (s.data.all Char.isDigit → (s.data.filter Char.isDigit).length < 4 →
      maskPaymentMethod s = s) := by
  have hextract : extractLastFourDigits s = String.mk
      ((s.data.filter Char.isDigit).drop
        ((s.data.filter Char.isDigit).length - 4)) := by
    unfold extractLastFourDigits
    by_cases h : (String.mk (s.data.filter Char.isDigit)).length ≤ 4
    · rw [if_pos h]
      have h' : (s.data.filter Char.isDigit).length ≤ 4 := h
      have hz : (s.data.filter Char.isDigit).length - 4 = 0 := by omega
      rw [hz, List.drop_zero]
    · rw [if_neg h]
      rfl
  have hexlen : (extractLastFourDigits s).length =
      min (s.data.filter Char.isDigit).length 4 := by
    rw [hextract]
    show ((s.data.filter Char.isDigit).drop
      ((s.data.filter Char.isDigit).length - 4)).length = _
    rw [List.length_drop]
    omega
  refine ⟨?_, ?_, ?_⟩
  · intro h4
    unfold maskPaymentMethod
    rw [if_neg (by rw [hexlen]; omega)]
    rw [hextract]
  · intro hlt
    unfold maskPaymentMethod
    rw [if_pos (by rw [hexlen]; omega)]
    rw [hextract]
    have hz : (s.data.filter Char.isDigit).length - 4 = 0 := by omega
    rw [hz, List.drop_zero]
  · intro hall hlt
    have hfilt : s.data.filter Char.isDigit = s.data :=
      List.filter_eq_self.mpr (by simpa [List.all_eq_true] using hall)
    unfold maskPaymentMethod
    rw [if_pos (by rw [hexlen]; omega)]
    rw [hextract, hfilt]
    have hz : s.data.length - 4 = 0 := by rw [hfilt] at hlt; omega
    rw [hz, List.drop_zero]

/-- Witness for C8 (amended) at a five-digit input. -/
theorem C8_mask_payment_method_witness :
    maskPaymentMethod "12345" = "**** 2345" := by
  have h := (C8_mask_payment_method "12345").1 (by decide)
  rw [h]
  decide

/-- Claim C2: `calculateNextPaymentDate` and `advancePaymentDate` apply
the same per-cycle delta — one calendar month for `monthly` (day of month
clamped to the target month's length, so 2024-01-31 maps to 2024-02-29),
one calendar year for `yearly` (Feb 29 clamps to Feb 28 off leap years,
so 2024-02-29 maps to 2025-02-28), and the input date unchanged for
`one-time` and `trial`. -/
theorem C2_next_payment_cycles (d : CivilDate) (hm1 : 1 ≤ d.month)
    (hm2 : d.month ≤ 12) :
    (∀ c, calculateNextPaymentDate d c = advancePaymentDate d c)
    ∧ calculateNextPaymentDate d "monthly" = .ok (addMonths d 1)
    ∧ calculateNextPaymentDate d "yearly" = .ok (addYears d 1)
    ∧ calculateNextPaymentDate d "one-time" = .ok d
    ∧ calculateNextPaymentDate d "trial" = .ok d
    ∧ (d.month < 12 → addMonths d 1 =
        ⟨d.year, d.month + 1, min d.day (daysInMonth d.year (d.month + 1))⟩)
    ∧ (d.month = 12 → addMonths d 1 = ⟨d.year + 1, 1, min d.day 31⟩)
    ∧ addYears d 1 =
        ⟨d.year + 1, d.month, min d.day (daysInMonth (d.year + 1) d.month)⟩
    ∧ addMonths ⟨2024, 1, 31⟩ 1 = ⟨2024, 2, 29⟩
    ∧ addYears ⟨2024, 2, 29⟩ 1 = ⟨2025, 2, 28⟩ := by
  refine ⟨fun c => rfl, rfl, rfl, rfl, rfl, ?_, ?_, ?_, by decide, by decide⟩
  · intro hlt
    have h1 : (d.year * 12 + (d.month : Int) - 1 + 1) / 12 = d.year := by omega
    have h2 : ((d.year * 12 + (d.month : Int) - 1 + 1) % 12).toNat + 1 =
        d.month + 1 := by omega
    unfold addMonths
    simp only []
    rw [h1, h2]
  · intro heq
    have h1 : (d.year * 12 + (d.month : Int) - 1 + 1) / 12 = d.year + 1 := by
      omega
    have h2 : ((d.year * 12 + (d.month : Int) - 1 + 1) % 12).toNat + 1 = 1 := by
      omega
    unfold addMonths
    simp only []
    rw [h1, h2]
    have : daysInMonth (d.year + 1) 1 = 31 := rfl
    rw [this]
  · have h1 : (d.year * 12 + (d.month : Int) - 1 + 12 * 1) / 12 = d.year + 1 := by
      omega
    have h2 : ((d.year * 12 + (d.month : Int) - 1 + 12 * 1) % 12).toNat + 1 =
        d.month := by omega
    unfold addYears addMonths
    simp only []
    rw [h1, h2]

/-- Witness for C2 at the end-of-January leap-year clamp. -/
theorem C2_next_payment_cycles_witness :
    calculateNextPaymentDate ⟨2024, 1, 31⟩ "monthly" = .ok (addMonths ⟨2024, 1, 31⟩ 1)
    ∧ addMonths ⟨2024, 1, 31⟩ 1 = ⟨2024, 2, 29⟩ :=
  ⟨(C2_next_payment_cycles ⟨2024, 1, 31⟩ (by norm_num) (by norm_num)).2.1,
   (C2_next_payment_cycles ⟨2024, 1, 31⟩ (by norm_num)
     (by norm_num)).2.2.2.2.2.2.2.2.1⟩

/-- Claim C6: the date calculators fail with the unknown-billing-cycle
error exactly when the cycle tag is not one of the four known tags; for
each of `monthly`, `yearly`, `one-time`, `trial` they return a date. -/
theorem C6_unknown_billing_cycle (d : CivilDate) (c : String) :
    ((∃ e, calculateNextPaymentDate d c = .error e) ↔
      c ≠ "monthly" ∧ c ≠ "yearly" ∧ c ≠ "one-time" ∧ c ≠ "trial")
    ∧ ((∃ e, advancePaymentDate d c = .error e) ↔
      c ≠ "monthly" ∧ c ≠ "yearly" ∧ c ≠ "one-time" ∧ c ≠ "trial")
    ∧ ((c = "monthly" ∨ c = "yearly" ∨ c = "one-time" ∨ c = "trial") →
      (∃ d1, calculateNextPaymentDate d c = .ok d1) ∧
      (∃ d2, advancePaymentDate d c = .ok d2))
    ∧ (c ≠ "monthly" ∧ c ≠ "yearly" ∧ c ≠ "one-time" ∧ c ≠ "trial" →
      calculateNextPaymentDate d c =
        .error ("Unknown billing cycle: " ++ c)) := by
  unfold calculateNextPaymentDate advancePaymentDate
  by_cases h1 : c = "monthly" <;> by_cases h2 : c = "yearly" <;>
    by_cases h3 : c = "one-time" <;> by_cases h4 : c = "trial" <;>
    simp [h1, h2, h3, h4]

/-- Witness for C6 at an unknown tag and a known tag. -/
theorem C6_unknown_billing_cycle_witness :
    calculateNextPaymentDate ⟨2024, 5, 1⟩ "weekly" =
      .error "Unknown billing cycle: weekly"
    ∧ ∃ d1, calculateNextPaymentDate ⟨2024, 5, 1⟩ "yearly" = .ok d1 :=
  ⟨(C6_unknown_billing_cycle ⟨2024, 5, 1⟩ "weekly").2.2.2
      (by refine ⟨?_, ?_, ?_, ?_⟩ <;> decide),
   ((C6_unknown_billing_cycle ⟨2024, 5, 1⟩ "yearly").2.2.1 (by tauto)).1⟩

theorem spendingStep_eq (a : ℚ) (s : Subscription) :
    spendingStep a s = a + recordContribution s := by
  unfold spendingStep recordContribution specContribution
  cases hp : s.price with
  | none => simp
  | some p =>
    by_cases h1 : s.subscriptionType = some "trial"
    · simp [h1]
    · by_cases h2 : s.subscriptionType = some "voucher"
      · simp [h1, h2]
      · cases s.billingCycle <;> simp [h1, h2]

theorem foldl_spendingStep (l : List Subscription) (a : ℚ) :
    l.foldl spendingStep a = a + (l.map recordContribution).sum := by
  induction l generalizing a with
  | nil => simp
  | cons x xs ih =>
    rw [List.foldl_cons, ih, spendingStep_eq]
    simp [add_assoc]

theorem spend_eq_sum (subs : List Subscription) :
    calculateTotalMonthlySpending subs =
      ((subs.filter (fun s => s.status == "active")).map recordContribution).sum := by
  unfold calculateTotalMonthlySpending
  rw [foldl_spendingStep, zero_add]

theorem sum_contributions_eq (l : List Subscription) :
    ((l.filter (fun s => s.status == "active" && s.price.isSome)).map
      (fun s => specContribution s (s.price.getD 0))).sum =
    ((l.filter (fun s => s.status == "active")).map recordContribution).sum := by
  induction l with
  | nil => rfl
  | cons x xs ih =>
    by_cases ha : x.status = "active"
    · cases hp : x.price with
      | none =>
        rw [List.filter_cons, List.filter_cons]
        simp only [ha, hp]
        simp [recordContribution, hp, ih]
      | some p =>
        rw [List.filter_cons, List.filter_cons]
        simp only [ha, hp]
        simp [recordContribution, hp, ih]
    · rw [List.filter_cons, List.filter_cons]
      simp [ha, ih]

/-- Claim C1: `calculateTotalMonthlySpending` is the sum, over exactly
the records with `status == "active"` and a parseable price, of the §4.3
contribution: 0 for `subscriptionType == "trial"`, the full price for
`"voucher"`, and otherwise by billing cycle (`monthly` as-is, `yearly`
divided by 12, `one-time`/`trial` as-is); non-active records contribute
nothing regardless of price, and `subscriptionType`, when present, takes
precedence over `billingCycle`. -/
theorem C1_total_monthly_spending (subs : List Subscription) :
    calculateTotalMonthlySpending subs =
      ((subs.filter (fun s => s.status == "active" && s.price.isSome)).map
        (fun s => specContribution s (s.price.getD 0))).sum := by
  rw [spend_eq_sum, sum_contributions_eq]

/-- Claim C5: a record whose stored price string fails numeric parsing
contributes exactly 0 and does not abort the aggregation — the total with
the malformed record present equals the total with it removed. -/
theorem C5_malformed_price (l1 l2 : List Subscription) (r : Subscription)
    (h : r.price = none) :
    calculateTotalMonthlySpending (l1 ++ r :: l2) =
      calculateTotalMonthlySpending (l1 ++ l2) := by
  rw [spend_eq_sum, spend_eq_sum, List.filter_append, List.filter_append,
    List.filter_cons]
  by_cases ha : (r.status == "active") = true
  · rw [if_pos ha]
    simp [recordContribution, h]
  · rw [if_neg ha]

/-- Witness for C5: a malformed-price record alongside one good record. -/
theorem C5_malformed_price_witness :
    calculateTotalMonthlySpending
      [⟨"active", none, .monthly, some 10, none, ⟨0, 0⟩⟩,
       ⟨"active", none, .yearly, none, none, ⟨0, 0⟩⟩] =
    calculateTotalMonthlySpending
      [⟨"active", none, .monthly, some 10, none, ⟨0, 0⟩⟩] :=
  C5_malformed_price [⟨"active", none, .monthly, some 10, none, ⟨0, 0⟩⟩] []
    ⟨"active", none, .yearly, none, none, ⟨0, 0⟩⟩ rfl

/-- Claim C4: `getTrialsEndingSoon` returns exactly the records that are
trials (`subscriptionType == "trial"` or `billingCycle == "trial"`) whose
`nextPaymentDate` is within the window, in input order (the result is a
sublist of the input); its day-difference test agrees with
`isWithinReminderDays` on every record, so membership is exactly trial
status plus `isWithinReminderDays`. -/
theorem C4_trials_ending_soon (subs : List Subscription) (w : Int)
    (today : Timestamp) :
    getTrialsEndingSoon subs w today =
      subs.filter (fun s =>
        (s.subscriptionType == some "trial" || s.billingCycle == BillingCycle.trial)
          && isWithinReminderDays s.nextPaymentDate w today)
    ∧ (getTrialsEndingSoon subs w today).Sublist subs
    ∧ ∀ s, s ∈ getTrialsEndingSoon subs w today ↔
        s ∈ subs ∧ (s.subscriptionType = some "trial" ∨ s.billingCycle = .trial)
          ∧ isWithinReminderDays s.nextPaymentDate w today = true := by
  have hfilt : getTrialsEndingSoon subs w today =
      subs.filter (fun s =>
        (s.subscriptionType == some "trial" || s.billingCycle == BillingCycle.trial)
          && isWithinReminderDays s.nextPaymentDate w today) := by
    unfold getTrialsEndingSoon
    simp only []
    apply List.filter_congr
    intro s _
    by_cases h : s.subscriptionType ≠ some "trial" ∧ s.billingCycle ≠ BillingCycle.trial
    · rw [if_pos h]
      have hor : (s.subscriptionType == some "trial"
          || s.billingCycle == BillingCycle.trial) = false := by
        simp [h.1, h.2]
      rw [hor, Bool.false_and]
    · rw [if_neg h]
      have hor : (s.subscriptionType == some "trial"
          || s.billingCycle == BillingCycle.trial) = true := by
        rcases not_and_or.mp h with h1 | h2
        · simp [not_not.mp h1]
        · simp [not_not.mp h2]
      rw [hor, Bool.true_and]
      rfl
  refine ⟨hfilt, ?_, ?_⟩
  · rw [hfilt]
    exact List.filter_sublist _
  · intro s
    rw [hfilt]
    simp [List.mem_filter, and_assoc]

theorem charSextet_sextetChar : ∀ n < 64, charSextet (sextetChar n) = some n := by
  decide

theorem sextetChar_ne_pad : ∀ n < 64, sextetChar n ≠ '=' := by
  decide

theorem decodeB64_encodeB64 :
    ∀ l : List Nat, (∀ x ∈ l, x < 256) → decodeB64 (encodeB64 l) = some l
  | [] => fun _ => rfl
  | [a] => fun h => by
    have ha : a < 256 := h a (by simp)
    have h1 : a / 4 < 64 := by omega
    have h2 : a % 4 * 16 < 64 := by omega
    show decodeB64 [sextetChar (a / 4), sextetChar (a % 4 * 16), '=', '='] = some [a]
    rw [decodeB64]
    rw [if_pos ⟨rfl, rfl, rfl⟩]
    rw [charSextet_sextetChar _ h1, charSextet_sextetChar _ h2]
    simp only [Option.bind_eq_bind, Option.some_bind, Option.pure_def]
    have e1 : a / 4 * 4 + a % 4 * 16 / 16 = a := by omega
    rw [e1]
  | [a, b] => fun h => by
    have ha : a < 256 := h a (by simp)
    have hb : b < 256 := h b (by simp)
    have h1 : a / 4 < 64 := by omega
    have h2 : a % 4 * 16 + b / 16 < 64 := by omega
    have h3 : b % 16 * 4 < 64 := by omega
    show decodeB64 [sextetChar (a / 4), sextetChar (a % 4 * 16 + b / 16),
      sextetChar (b % 16 * 4), '='] = some [a, b]
    rw [decodeB64]
    rw [if_neg (by intro hand; exact sextetChar_ne_pad _ h3 hand.1)]
    rw [if_pos ⟨rfl, rfl⟩]
    rw [charSextet_sextetChar _ h1, charSextet_sextetChar _ h2,
      charSextet_sextetChar _ h3]
    simp only [Option.bind_eq_bind, Option.some_bind, Option.pure_def]
    have e1 : a / 4 * 4 + (a % 4 * 16 + b / 16) / 16 = a := by omega
    have e2 : (a % 4 * 16 + b / 16) % 16 * 16 + b % 16 * 4 / 4 = b := by omega
    rw [e1, e2]
  | a :: b :: c :: rest => fun h => by
    have ha : a < 256 := h a (by simp)
    have hb : b < 256 := h b (by simp)
    have hc : c < 256 := h c (by simp)
    have h1 : a / 4 < 64 := by omega
    have h2 : a % 4 * 16 + b / 16 < 64 := by omega
    have h3 : b % 16 * 4 + c / 64 < 64 := by omega
    have h4 : c % 64 < 64 := by omega
    have ih := decodeB64_encodeB64 rest (fun x hx => h x (by simp [hx]))
    show decodeB64 (sextetChar (a / 4) :: sextetChar (a % 4 * 16 + b / 16) ::
      sextetChar (b % 16 * 4 + c / 64) :: sextetChar (c % 64) ::
      encodeB64 rest) = some (a :: b :: c :: rest)
    rw [decodeB64]
    rw [if_neg (by intro hand; exact sextetChar_ne_pad _ h3 hand.1)]
    rw [if_neg (by intro hand; exact sextetChar_ne_pad _ h4 hand.1)]
    rw [charSextet_sextetChar _ h1, charSextet_sextetChar _ h2,
      charSextet_sextetChar _ h3, charSextet_sextetChar _ h4, ih]
    simp only [Option.bind_eq_bind, Option.some_bind, Option.pure_def]
    have e1 : a / 4 * 4 + (a % 4 * 16 + b / 16) / 16 = a := by omega
    have e2 : (a % 4 * 16 + b / 16) % 16 * 16 + (b % 16 * 4 + c / 64) / 4 = b := by
      omega
    have e3 : (b % 16 * 4 + c / 64) % 4 * 64 + c % 64 = c := by omega
    rw [e1, e2, e3]

theorem decryptPassword_encryptPassword (A : CipherModel) (iv plain : List Nat)
    (hdec : A.decrypt iv (A.getAuthTag iv plain) (A.encrypt iv plain) = some plain)
    (htaglen : (A.getAuthTag iv plain).length = 16)
    (hivlen : iv.length = 16)
    (hivb : ∀ x ∈ iv, x < 256)
    (htagb : ∀ x ∈ A.getAuthTag iv plain, x < 256)
    (hencb : ∀ x ∈ A.encrypt iv plain, x < 256) :
    decryptPassword A (encryptPassword A iv plain) = some plain := by
  have hb : ∀ x ∈ iv ++ A.getAuthTag iv plain ++ A.encrypt iv plain, x < 256 := by
    intro x hx
    simp only [List.mem_append] at hx
    rcases hx with (hx | hx) | hx
    · exact hivb x hx
    · exact htagb x hx
    · exact hencb x hx
  unfold encryptPassword decryptPassword
  simp only []
  rw [decodeB64_encodeB64 _ hb]
  have hassoc : iv ++ A.getAuthTag iv plain ++ A.encrypt iv plain =
      iv ++ (A.getAuthTag iv plain ++ A.encrypt iv plain) :=
    List.append_assoc _ _ _
  have htake : (iv ++ A.getAuthTag iv plain ++ A.encrypt iv plain).take IV_LENGTH
      = iv := by
    rw [hassoc]
    exact List.take_left' hivlen
  have hdrop : (iv ++ A.getAuthTag iv plain ++ A.encrypt iv plain).drop IV_LENGTH
      = A.getAuthTag iv plain ++ A.encrypt iv plain := by
    rw [hassoc]
    exact List.drop_left' hivlen
  have htag : ((iv ++ A.getAuthTag iv plain ++ A.encrypt iv plain).drop
      IV_LENGTH).take AUTH_TAG_LENGTH = A.getAuthTag iv plain := by
    rw [hdrop]
    exact List.take_left' htaglen
  have henc : (iv ++ A.getAuthTag iv plain ++ A.encrypt iv plain).drop
      (IV_LENGTH + AUTH_TAG_LENGTH) = A.encrypt iv plain := by
    rw [← List.drop_drop, hdrop]
    exact List.drop_left' htaglen
  rw [Option.some_bind]
  rw [htake, htag, henc]
  exact hdec

/-- Claim C9: for the plaintext byte string of any password (empty and
non-ASCII included), decrypting an encryption yields the plaintext back,
for any correctly-inverting AES-GCM primitive and any 16-byte IV drawn by
the per-call randomness; and two calls that draw distinct IVs produce
distinct ciphertexts, each of which decrypts back to the plaintext. -/
theorem C9_password_roundtrip (A : CipherModel) (iv1 iv2 plain : List Nat)
    (hdec1 : A.decrypt iv1 (A.getAuthTag iv1 plain) (A.encrypt iv1 plain) =
      some plain)
    (hdec2 : A.decrypt iv2 (A.getAuthTag iv2 plain) (A.encrypt iv2 plain) =
      some plain)
    (htag1 : (A.getAuthTag iv1 plain).length = 16)
    (htag2 : (A.getAuthTag iv2 plain).length = 16)
    (hiv1len : iv1.length = 16) (hiv2len : iv2.length = 16)
    (hiv1b : ∀ x ∈ iv1, x < 256) (hiv2b : ∀ x ∈ iv2, x < 256)
    (htagb1 : ∀ x ∈ A.getAuthTag iv1 plain, x < 256)
    (htagb2 : ∀ x ∈ A.getAuthTag iv2 plain, x < 256)
    (hencb1 : ∀ x ∈ A.encrypt iv1 plain, x < 256)
    (hencb2 : ∀ x ∈ A.encrypt iv2 plain, x < 256) :
    decryptPassword A (encryptPassword A iv1 plain) = some plain
    ∧ decryptPassword A (encryptPassword A iv2 plain) = some plain
    ∧ (iv1 ≠ iv2 →
        encryptPassword A iv1 plain ≠ encryptPassword A iv2 plain) := by
  refine ⟨decryptPassword_encryptPassword A iv1 plain hdec1 htag1 hiv1len
      hiv1b htagb1 hencb1,
    decryptPassword_encryptPassword A iv2 plain hdec2 htag2 hiv2len
      hiv2b htagb2 hencb2, ?_⟩
  intro hne heq
  apply hne
  have hb1 : ∀ x ∈ iv1 ++ A.getAuthTag iv1 plain ++ A.encrypt iv1 plain,
      x < 256 := by
    intro x hx
    simp only [List.mem_append] at hx
    rcases hx with (hx | hx) | hx
    · exact hiv1b x hx
    · exact htagb1 x hx
    · exact hencb1 x hx
  have hb2 : ∀ x ∈ iv2 ++ A.getAuthTag iv2 plain ++ A.encrypt iv2 plain,
      x < 256 := by
    intro x hx
    simp only [List.mem_append] at hx
    rcases hx with (hx | hx) | hx
    · exact hiv2b x hx
    · exact htagb2 x hx
    · exact hencb2 x hx
  have hdata : encodeB64 (iv1 ++ A.getAuthTag iv1 plain ++ A.encrypt iv1 plain)
      = encodeB64 (iv2 ++ A.getAuthTag iv2 plain ++ A.encrypt iv2 plain) :=
    congrArg String.data heq
  have h1 := decodeB64_encodeB64 _ hb1
  have h2 := decodeB64_encodeB64 _ hb2
  rw [hdata] at h1
  rw [h2] at h1
  have hcomb := Option.some.inj h1
  have := congrArg (List.take 16) hcomb
  rw [List.append_assoc, List.append_assoc] at this
  rw [List.take_left' hiv2len, List.take_left' hiv1len] at this
  exact this.symm

/-- Witness for C9 with a degenerate cipher, two distinct concrete IVs
and the plaintext bytes of "hi". -/
theorem C9_password_roundtrip_witness :
    decryptPassword trivialCipher
      (encryptPassword trivialCipher (List.replicate 16 0) [104, 105]) =
      some [104, 105]
    ∧ encryptPassword trivialCipher (List.replicate 16 0) [104, 105] ≠
      encryptPassword trivialCipher (1 :: List.replicate 15 0) [104, 105] := by
  have h := C9_password_roundtrip trivialCipher (List.replicate 16 0)
    (1 :: List.replicate 15 0) [104, 105] (by decide) (by decide) (by decide)
    (by decide) (by decide) (by decide) (by decide) (by decide) (by decide)
    (by decide) (by decide) (by decide)
  exact ⟨h.1, h.2.2 (by decide)⟩

theorem digitVal_digitChar : ∀ n < 10, digitVal (digitChar n) = some n := by
  decide

theorem r2_pad2 (n : Nat) (h : n < 100) :
    r2 (digitChar (n / 10)) (digitChar (n % 10)) = some n := by
  have h1 : n / 10 < 10 := by omega
  have h2 : n % 10 < 10 := by omega
  unfold r2
  rw [digitVal_digitChar _ h1, digitVal_digitChar _ h2]
  simp only [Option.bind_eq_bind, Option.some_bind, Option.pure_def,
    Option.some.injEq]
  omega

theorem daysInMonth_le (y : Int) (m : Nat) : daysInMonth y m ≤ 31 := by
  unfold daysInMonth
  split
  all_goals first
  | omega
  | (split <;> omega)

theorem parseISO_toISOString (c : DateComponents) (h : isValidDate c = true) :
    parseISO (toISOString c) = some c := by
  obtain ⟨y, mo, d, hh, mi, s, mls⟩ := c
  have hb := h
  simp only [isValidDate, Bool.and_eq_true, decide_eq_true_eq] at hb
  obtain ⟨⟨⟨⟨⟨⟨⟨⟨h1, h2⟩, h3⟩, h4⟩, h5⟩, h6⟩, h7⟩, h8⟩, h9⟩ := hb
  have step : parseISO (toISOString ⟨y, mo, d, hh, mi, s, mls⟩) = (do
      let yh ← r2 (digitChar (y / 100 / 10)) (digitChar (y / 100 % 10))
      let yl ← r2 (digitChar (y % 100 / 10)) (digitChar (y % 100 % 10))
      let month ← r2 (digitChar (mo / 10)) (digitChar (mo % 10))
      let day ← r2 (digitChar (d / 10)) (digitChar (d % 10))
      let hour ← r2 (digitChar (hh / 10)) (digitChar (hh % 10))
      let minute ← r2 (digitChar (mi / 10)) (digitChar (mi % 10))
      let second ← r2 (digitChar (s / 10)) (digitChar (s % 10))
      let xh ← digitVal (digitChar (mls / 100))
      let xl ← r2 (digitChar (mls % 100 / 10)) (digitChar (mls % 100 % 10))
      let c0 : DateComponents :=
        ⟨yh * 100 + yl, month, day, hour, minute, second, xh * 100 + xl⟩
      if isValidDate c0 then some c0 else none) := rfl
  have hdm := daysInMonth_le (y : Int) mo
  rw [step]
  rw [r2_pad2 (y / 100) (by omega), r2_pad2 (y % 100) (by omega),
    r2_pad2 mo (by omega), r2_pad2 d (by omega), r2_pad2 hh (by omega),
    r2_pad2 mi (by omega), r2_pad2 s (by omega),
    digitVal_digitChar (mls / 100) (by omega),
    r2_pad2 (mls % 100) (by omega)]
  simp only [Option.bind_eq_bind, Option.some_bind]
  have e1 : y / 100 * 100 + y % 100 = y := by omega
  have e2 : mls / 100 * 100 + mls % 100 = mls := by omega
  rw [e1, e2, h]
  rfl

/-- Claim C10: for every subscription record whose four date fields are
valid dates, deserializing the serialization returns the record field for
field, each date field denoting the same instant — the JSON round trip is
lossless. -/
theorem C10_serialization_roundtrip (r : SerializableSubscription)
    (c1 c2 c3 c4 : DateComponents)
    (h1 : r.startDate = some c1) (h2 : r.nextPaymentDate = some c2)
    (h3 : r.createdAt = some c3) (h4 : r.updatedAt = some c4)
    (hv1 : isValidDate c1 = true) (hv2 : isValidDate c2 = true)
    (hv3 : isValidDate c3 = true) (hv4 : isValidDate c4 = true) :
    ∃ j, serializeSubscription r = some j ∧ deserializeSubscription j = r := by
  unfold serializeSubscription
  rw [h1, h2, h3, h4]
  refine ⟨_, rfl, ?_⟩
  unfold deserializeSubscription
  simp only [parseISO_toISOString c1 hv1, parseISO_toISOString c2 hv2,
    parseISO_toISOString c3 hv3, parseISO_toISOString c4 hv4]
  rw [← h1, ← h2, ← h3, ← h4]

/-- Witness for C10 at a concrete record with four valid dates. -/
theorem C10_serialization_roundtrip_witness :
    ∃ j, serializeSubscription
        ⟨"id1", "user1", "Netflix", "12.99", "USD", .monthly,
         some ⟨2024, 5, 17, 10, 30, 0, 0⟩, some ⟨2024, 6, 17, 10, 30, 0, 0⟩,
         3, none, none, none, none, none, some "Entertainment", "active",
         some ⟨2024, 5, 17, 10, 30, 0, 123⟩,
         some ⟨2024, 5, 18, 9, 0, 5, 999⟩⟩ = some j
      ∧ deserializeSubscription j =
        ⟨"id1", "user1", "Netflix", "12.99", "USD", .monthly,
         some ⟨2024, 5, 17, 10, 30, 0, 0⟩, some ⟨2024, 6, 17, 10, 30, 0, 0⟩,
         3, none, none, none, none, none, some "Entertainment", "active",
         some ⟨2024, 5, 17, 10, 30, 0, 123⟩,
         some ⟨2024, 5, 18, 9, 0, 5, 999⟩⟩ :=
  C10_serialization_roundtrip _ _ _ _ _ rfl rfl rfl rfl
    (by decide) (by decide) (by decide) (by decide)

end ISubrek
